import Mathlib

/-!
Verification development for the cplinfo tool
(src/src/main/python/cplinfo/cli.py).

The program extracts composition metadata from an IMF Composition
Playlist XML document.  This file gives a shallow embedding of the
parts of the program with algorithmic content:

* the qualified-name resolver (split_qname, cli.py lines 41-43);
* the rational parser (cpl_rational_to_fraction, lines 45-46);
* the per-track resource aggregator (CPLInfo.__init__, lines 256-280),
  including the SHA-1 fingerprint it builds via hashlib.sha1;
* the sequence loop of the composition model builder (lines 219-280);
* the duration rendering of the track reports (to_dict, line 104).

Modelling conventions:

* An XML-tree lookup (Element.findtext) that may fail is embedded as a
  field of type Option String on the record standing for the element;
  the control flow that consumes those fields is translated from the
  source line by line.
* Python exceptions become Except String results; each error value names
  the Python exception class the source would raise at that point.
* Python integers are Int; hashlib state words are Nat reduced mod 2^32.
* Python Fraction values are ℚ (both normalize to lowest terms with a
  positive denominator, and both render canonically, so equality and
  string rendering coincide).
* The duration accumulated at cli.py line 265/269 is a Python float in
  the source; it is embedded as an exact ℚ.  The theorems below depend
  only on the rendering of the computed duration being a function of the
  computed value (and injective on the concrete examples used), which
  holds for both the float repr and the canonical rational rendering.
-/

/-! ## SHA-1 (the hash used by hashlib.sha1 for the track fingerprint) -/

/-- Left rotation of a 32-bit word represented as a Nat below 2^32. -/
def rotl32 (x n : Nat) : Nat :=
  ((x <<< n) ||| (x >>> (32 - n))) % 4294967296

/-- Big-endian bytes (most significant first) of n, k bytes wide. -/
def beBytes : Nat → Nat → List Nat
  | 0, _ => []
  | k + 1, n => beBytes k (n / 256) ++ [n % 256]

/-- Group a byte list into 4-byte big-endian 32-bit words. -/
def toWords : List Nat → List Nat
  | a :: b :: c :: d :: rest => (((a * 256 + b) * 256 + c) * 256 + d) :: toWords rest
  | _ => []

/-- Extend the 16-word message schedule by k further words
(w i = rotl1 (w (i-3) xor w (i-8) xor w (i-14) xor w (i-16))). -/
def sha1Extend (ws : List Nat) : Nat → List Nat
  | 0 => ws
  | k + 1 =>
    let i := ws.length
    let w := rotl32 ((ws.getD (i - 3) 0) ^^^ (ws.getD (i - 8) 0) ^^^
                     (ws.getD (i - 14) 0) ^^^ (ws.getD (i - 16) 0)) 1
    sha1Extend (ws ++ [w]) k

/-- SHA-1 round function, by round index t. -/
def sha1F (t b c d : Nat) : Nat :=
  if t < 20 then (b &&& c) ||| ((b ^^^ 4294967295) &&& d)
  else if t < 40 then b ^^^ c ^^^ d
  else if t < 60 then (b &&& c) ||| (b &&& d) ||| (c &&& d)
  else b ^^^ c ^^^ d

/-- SHA-1 round constant, by round index t. -/
def sha1K (t : Nat) : Nat :=
  if t < 20 then 0x5A827999
  else if t < 40 then 0x6ED9EBA1
  else if t < 60 then 0x8F1BBCDC
  else 0xCA62C1D6

/-- Run the 80 SHA-1 rounds over the indexed message schedule. -/
def sha1Rounds : List (Nat × Nat) → Nat × Nat × Nat × Nat × Nat → Nat × Nat × Nat × Nat × Nat
  | [], st => st
  | (t, w) :: rest, (a, b, c, d, e) =>
    let temp := (rotl32 a 5 + sha1F t b c d + e + sha1K t + w) % 4294967296
    sha1Rounds rest (temp, a, rotl32 b 30, c, d)

/-- Compress one 64-byte block into the running hash state. -/
def sha1Block (h : Nat × Nat × Nat × Nat × Nat) (block : List Nat) :
    Nat × Nat × Nat × Nat × Nat :=
  match h with
  | (h0, h1, h2, h3, h4) =>
    let ws := sha1Extend (toWords block) 64
    match sha1Rounds ws.enum (h0, h1, h2, h3, h4) with
    | (a, b, c, d, e) =>
      ((h0 + a) % 4294967296, (h1 + b) % 4294967296, (h2 + c) % 4294967296,
       (h3 + d) % 4294967296, (h4 + e) % 4294967296)

/-- SHA-1 padding: 0x80, zeros to 56 mod 64, then the 64-bit bit length. -/
def sha1Pad (m : List Nat) : List Nat :=
  let L := m.length
  let zeros := (120 - (L + 1) % 64) % 64
  m ++ [128] ++ List.replicate zeros 0 ++ beBytes 8 (L * 8)

/-- Split a (padded) byte list into 64-byte blocks, with fuel. -/
def chunksAux : Nat → List Nat → List (List Nat)
  | 0, _ => []
  | _, [] => []
  | fuel + 1, l => l.take 64 :: chunksAux fuel (l.drop 64)

/-- Split a byte list into 64-byte blocks. -/
def chunks64 (l : List Nat) : List (List Nat) := chunksAux l.length l

/-- SHA-1 digest (20 bytes) of a byte message. -/
def sha1Bytes (m : List Nat) : List Nat :=
  let blocks := chunks64 (sha1Pad m)
  match blocks.foldl sha1Block
      (0x67452301, 0xEFCDAB89, 0x98BADCFE, 0x10325476, 0xC3D2E1F0) with
  | (h0, h1, h2, h3, h4) =>
    beBytes 4 h0 ++ beBytes 4 h1 ++ beBytes 4 h2 ++ beBytes 4 h3 ++ beBytes 4 h4

/-- Lower-case hex digit. -/
def hexDigit (n : Nat) : Char :=
  if n < 10 then Char.ofNat (48 + n) else Char.ofNat (87 + n)

/-- Two-digit lower-case hex rendering of one byte. -/
def byteHex (b : Nat) : String :=
  String.mk [hexDigit (b / 16), hexDigit (b % 16)]

/-- hashlib hexdigest of the SHA-1 of the ASCII bytes of a string
(the program only ever feeds ASCII data to the digest, via
bytes(..., 'ascii') at cli.py lines 275-278). -/
def sha1Hex (s : String) : String :=
  String.join ((sha1Bytes (s.data.map Char.toNat)).map byteHex)

/-! ## Qualified-name resolver (cli.py lines 41-43) -/

/-- split_qname from cli.py lines 41-43:
re.match on the pattern backslash-brace (.*) backslash-brace-close (.*)
returns (group 1, group 2) on a match and (None, None) otherwise.
The first group is greedy, so the split happens at the LAST closing
brace; a string that does not start with an opening brace, or has no
closing brace after it, does not match, and BOTH components are None.
(The Python dot does not cross a newline; XML element tags cannot
contain newlines, so that case is not modelled.) -/
def split_qname (qname : String) : Option String × Option String :=
  match qname.data with
  | '\x7b' :: rest =>
    if rest.contains '\x7d' then
      let localPart := (rest.reverse.takeWhile (fun c => c ≠ '\x7d')).reverse
      let nsPart := rest.take (rest.length - localPart.length - 1)
      (some (String.mk nsPart), some (String.mk localPart))
    else (none, none)
  | _ => (none, none)

/-! ## Rational parser (cli.py lines 45-46) and Python-style field parsing -/

/-- Accumulate decimal digits; any non-digit character fails. -/
def parseNatAux : List Char → Nat → Option Nat
  | [], acc => some acc
  | c :: cs, acc =>
    if 48 ≤ c.toNat ∧ c.toNat ≤ 57 then parseNatAux cs (acc * 10 + (c.toNat - 48))
    else none

/-- Parse an optionally minus-signed decimal integer. -/
def pyIntParse (s : String) : Option Int :=
  match s.data with
  | [] => none
  | '-' :: cs =>
    match cs with
    | [] => none
    | _ => (parseNatAux cs 0).map (fun n => -(n : Int))
  | cs => (parseNatAux cs 0).map (fun n => (n : Int))

/-- Python int(s) on a string, as used for frame counts: parse failure is
a ValueError.  (Leading plus signs, whitespace and underscores accepted
by Python are not exercised by any claim and are not modelled.) -/
def pyInt (s : String) : Except String Int :=
  match pyIntParse s with
  | some v => Except.ok v
  | none => Except.error "ValueError"

/-- cpl_rational_to_fraction from cli.py lines 45-46:
Fraction(*map(int, r.split())).  r.split() splits on whitespace runs;
zero tokens give Fraction() = 0, one token gives Fraction(n), two give
Fraction(n, d) (ZeroDivisionError when d = 0, sign and gcd normalized
exactly as ℚ normalizes), three or more raise TypeError. -/
def cpl_rational_to_fraction (r : String) : Except String ℚ :=
  let parts := (r.split (fun c => c = ' ' ∨ c = '\t' ∨ c = '\n' ∨ c = '\r')).filter
    (fun t => t ≠ "")
  match parts with
  | [] => Except.ok 0
  | [n] =>
    match pyInt n with
    | Except.ok v => Except.ok (v : ℚ)
    | Except.error e => Except.error e
  | [n, d] =>
    match pyInt n, pyInt d with
    | Except.ok nv, Except.ok dv =>
      if dv = 0 then Except.error "ZeroDivisionError"
      else Except.ok ((nv : ℚ) / (dv : ℚ))
    | Except.error e, _ => Except.error e
    | _, Except.error e => Except.error e
  | _ => Except.error "TypeError"

/-- Python str() of the findtext result fed to the digest at line 278:
str(None) is the four-character string None. -/
def pyStrOpt : Option String → String
  | none => "None"
  | some s => s

/-- Python str() of a Fraction: num/den in lowest terms, bare num when
the denominator is 1.  ℚ is kept normalized the same way. -/
def fractionStr (q : ℚ) : String :=
  if q.den = 1 then toString q.num else toString q.num ++ "/" ++ toString q.den

/-! ## The resource aggregator (cli.py lines 256-280) -/

/-- One Resource element of the CPL, as the aggregator reads it: each
field holds the findtext result for the corresponding child element
(None when the element is absent). -/
structure Resource where
  editRate? : Option String
  entryPoint? : Option String
  sourceDuration? : Option String
  intrinsicDuration? : Option String
  repeatCount? : Option String
  trackFileId? : Option String
deriving DecidableEq, Repr

/-- cli.py line 261:
cpl_rational_to_fraction(resource.findtext(EditRate)) or self.edit_rate.
When the EditRate element is absent, findtext returns None and
cpl_rational_to_fraction calls None.split(), raising AttributeError;
the composition-default fallback only triggers when the element is
present and parses to Fraction(0) (empty or zero-valued text). -/
def resolveEditRate (compRate : ℚ) (er? : Option String) : Except String ℚ :=
  match er? with
  | none => Except.error "AttributeError"
  | some s =>
    match cpl_rational_to_fraction s with
    | Except.error e => Except.error e
    | Except.ok f => Except.ok (if f = 0 then compRate else f)

/-- cli.py line 263: int(resource.findtext(EntryPoint) or 0).
None and the empty string are falsy and default to 0. -/
def entryFrames (ep? : Option String) : Except String Int :=
  match ep? with
  | none => Except.ok 0
  | some s => if s = "" then Except.ok 0 else pyInt s

/-- cli.py line 265, the frame count:
int(findtext(SourceDuration) or findtext(IntrinsicDuration)).
A present non-empty SourceDuration wins; otherwise IntrinsicDuration is
used; if that is also absent, int(None) raises TypeError. -/
def durationFrames (sd? id? : Option String) : Except String Int :=
  let v? : Option String :=
    match sd? with
    | some s => if s = "" then id? else some s
    | none => id?
  match v? with
  | none => Except.error "TypeError"
  | some s => pyInt s

/-- cli.py line 271: int(resource.findtext(RepeatCount) or 1). -/
def repeatCount (rc? : Option String) : Except String Int :=
  match rc? with
  | none => Except.ok 1
  | some s => if s = "" then Except.ok 1 else pyInt s

/-- The body of the resource loop, cli.py lines 260-278, for one
resource: resolve the edit rate, compute entry_point and duration,
skip the resource when duration is 0 (before RepeatCount is even read),
otherwise parse RepeatCount and produce the digest chunk
str(entry_point) ++ str(duration) ++ str(repeat_count) ++
str(trackfile_id) together with the duration to accumulate.
Division by a zero edit rate is Python's ZeroDivisionError at line 265;
it is checked after the frame count is parsed, in evaluation order. -/
def processResource (cr : ℚ) (r : Resource) : Except String (Option (String × ℚ)) :=
  match resolveEditRate cr r.editRate? with
  | Except.error e => Except.error e
  | Except.ok er =>
    match entryFrames r.entryPoint? with
    | Except.error e => Except.error e
    | Except.ok epf =>
      match durationFrames r.sourceDuration? r.intrinsicDuration? with
      | Except.error e => Except.error e
      | Except.ok n =>
        if er = 0 then Except.error "ZeroDivisionError"
        else
          if (n : ℚ) / er = 0 then Except.ok none
          else
            match repeatCount r.repeatCount? with
            | Except.error e => Except.error e
            | Except.ok rc =>
              Except.ok (some
                (fractionStr (er * (epf : ℚ)) ++ fractionStr ((n : ℚ) / er) ++
                   toString rc ++ pyStrOpt r.trackFileId?,
                 (n : ℚ) / er))

/-- The resource loop of cli.py lines 256-279: fold the digest chunks in
document order into one input string and sum the non-zero durations. -/
def aggAux (cr : ℚ) : List Resource → Except String (String × ℚ)
  | [] => Except.ok ("", 0)
  | r :: rs =>
    match processResource cr r with
    | Except.error e => Except.error e
    | Except.ok none => aggAux cr rs
    | Except.ok (some (chunk, d)) =>
      match aggAux cr rs with
      | Except.error e => Except.error e
      | Except.ok (inp, tot) => Except.ok (chunk ++ inp, d + tot)

/-- The aggregated triple handed to the virtual-track constructor at
cli.py line 280: (fingerprint.hexdigest(), total_duration,
len(resources)) — the count is the raw list length. -/
def aggregateResources (cr : ℚ) (rs : List Resource) :
    Except String (String × ℚ × Nat) :=
  match aggAux cr rs with
  | Except.error e => Except.error e
  | Except.ok (inp, tot) => Except.ok (sha1Hex inp, tot, rs.length)

/-- The computed per-resource values (entry_point, duration,
repeat_count, trackfile_id) of cli.py lines 261-273, independent of the
zero-duration skip.  Used to state that the fingerprint depends only on
these computed values. -/
def computedValues (cr : ℚ) (r : Resource) :
    Except String (ℚ × ℚ × Int × Option String) :=
  match resolveEditRate cr r.editRate? with
  | Except.error e => Except.error e
  | Except.ok er =>
    match entryFrames r.entryPoint? with
    | Except.error e => Except.error e
    | Except.ok epf =>
      match durationFrames r.sourceDuration? r.intrinsicDuration? with
      | Except.error e => Except.error e
      | Except.ok n =>
        if er = 0 then Except.error "ZeroDivisionError"
        else
          match repeatCount r.repeatCount? with
          | Except.error e => Except.error e
          | Except.ok rc => Except.ok (er * (epf : ℚ), (n : ℚ) / er, rc, r.trackFileId?)

/-- Element-wise computed values of a resource list. -/
def computedList (cr : ℚ) : List Resource → Except String (List (ℚ × ℚ × Int × Option String))
  | [] => Except.ok []
  | r :: rs =>
    match computedValues cr r with
    | Except.error e => Except.error e
    | Except.ok v =>
      match computedList cr rs with
      | Except.error e => Except.error e
      | Except.ok vs => Except.ok (v :: vs)

/-- The digest chunk determined by one computed-values tuple. -/
def chunkOf (v : ℚ × ℚ × Int × Option String) : String :=
  fractionStr v.1 ++ fractionStr v.2.1 ++ toString v.2.2.1 ++ pyStrOpt v.2.2.2

/-! ## The composition model builder sequence loop (cli.py lines 193-280) -/

/-- The three dispatched sequence kinds of cli.py lines 232-237. -/
inductive SequenceKind
  | mainImage
  | mainAudio
  | subtitles
deriving DecidableEq, Repr

/-- The accepted core namespaces, COMPATIBLE_CORE_NS of cli.py
lines 69-73. -/
def COMPATIBLE_CORE_NS : List String :=
  ["http://www.smpte-ra.org/schemas/2067-2/2013",
   "http://www.smpte-ra.org/schemas/2067-2/2016",
   "http://www.smpte-ra.org/ns/2067-2/2020"]

/-- The membership test of cli.py line 228: a None namespace is not in
the set either. -/
def nsOk : Option String → Bool
  | some ns => COMPATIBLE_CORE_NS.contains ns
  | none => false

/-- The dispatch on the sequence local name, cli.py lines 232-240; any
other name (including the None produced by a non-matching tag) selects
no kind. -/
def kindOf : Option String → Option SequenceKind
  | some s =>
    if s = "MainImageSequence" then some SequenceKind.mainImage
    else if s = "MainAudioSequence" then some SequenceKind.mainAudio
    else if s = "SubtitlesSequence" then some SequenceKind.subtitles
    else none
  | none => none

/-- One sequence element of the SequenceList, as the loop at cli.py
lines 219-254 reads it: its qualified tag and the findtext results for
TrackId and SourceEncoding. -/
structure Sequence where
  tag : String
  trackId? : Option String
  sourceEncoding? : Option String
deriving DecidableEq, Repr

/-- A log diagnostic (LOGGER.error / LOGGER.warning) emitted for a
skipped sequence. -/
inductive Diag
  | diagError (msg : String)
  | diagWarning (msg : String)
deriving DecidableEq, Repr

/-- The virtual-track model retained per sequence: the constructor at
cli.py line 280 stores the track id and the aggregated
(fingerprint, duration, resource count) triple.  The kind-specific
essence fields are read from the matched essence descriptor element and
are outside the scope of the claims verified here. -/
structure VirtualTrack where
  kind : SequenceKind
  track_id : String
  fingerprint : String
  duration : ℚ
  resource_count : Nat
deriving DecidableEq, Repr

/-- The parts of the parsed CPL document the sequence loop consults:
the composition edit rate (self.edit_rate, line 213), the Id values of
the EssenceDescriptor elements (the lookup at line 248 succeeds exactly
when the SourceEncoding value is among them), the Resource elements per
TrackId (the findall at line 254; no match gives the empty list), and
the sequence elements in document order (line 219). -/
structure CPLDoc where
  compEditRate : ℚ
  descriptorIds : List String
  resourceMap : List (String × List Resource)
  sequences : List Sequence
deriving DecidableEq, Repr

/-- The document-wide resource findall of cli.py line 254, keyed on the
track id. -/
def resourcesFor (doc : CPLDoc) (tid : String) : List Resource :=
  match doc.resourceMap.find? (fun p => p.1 == tid) with
  | some p => p.2
  | none => []

/-- One iteration of the sequence loop, cli.py lines 219-280: the five
skip checks in source order (missing TrackId, unknown namespace,
unknown sequence kind, missing SourceEncoding, no matching essence
descriptor), each yielding a diagnostic and no track, then the resource
aggregation, whose exception (if any) propagates. -/
def processSequence (doc : CPLDoc) (s : Sequence) :
    Except String (Option Diag × Option VirtualTrack) :=
  match s.trackId? with
  | none => Except.ok (some (Diag.diagError "Sequence is missing TrackId"), none)
  | some tid =>
    if nsOk (split_qname s.tag).1 = false then
      Except.ok (some (Diag.diagWarning "Unknown virtual track namespace"), none)
    else
      match kindOf (split_qname s.tag).2 with
      | none => Except.ok (some (Diag.diagWarning "Unknown Sequence kind"), none)
      | some k =>
        match s.sourceEncoding? with
        | none => Except.ok (some (Diag.diagError "Cannot find source encoding descriptor"), none)
        | some se =>
          if doc.descriptorIds.contains se = false then
            Except.ok (some (Diag.diagError "Cannot find essence descriptor"), none)
          else
            match aggregateResources doc.compEditRate (resourcesFor doc tid) with
            | Except.error e => Except.error e
            | Except.ok (fp, tot, cnt) =>
              Except.ok (none, some (VirtualTrack.mk k tid fp tot cnt))

/-- The whole sequence loop over a list of sequences, collecting the
emitted diagnostics and the appended virtual tracks; an uncaught
exception from any iteration aborts the whole extraction. -/
def buildTracks (doc : CPLDoc) : List Sequence →
    Except String (List Diag × List VirtualTrack)
  | [] => Except.ok ([], [])
  | s :: rest =>
    match processSequence doc s with
    | Except.error e => Except.error e
    | Except.ok (d?, t?) =>
      match buildTracks doc rest with
      | Except.error e => Except.error e
      | Except.ok (ds, ts) => Except.ok (d?.toList ++ ds, t?.toList ++ ts)

/-- The virtual_tracks construction of CPLInfo.__init__ applied to the
document's own sequence list. -/
def buildCPL (doc : CPLDoc) : Except String (List Diag × List VirtualTrack) :=
  buildTracks doc doc.sequences

/-- True exactly when the computation raised (an Except.error). -/
def exceptIsError {ε α : Type} : Except ε α → Bool
  | Except.error _ => true
  | Except.ok _ => false

/-! ## Report rendering (to_dict, cli.py lines 98-115) -/

/-- Python round(x, 3): round half to even at the third decimal. -/
def pyRound3 (q : ℚ) : ℚ :=
  let scaled := q * 1000
  let f : ℤ := scaled.floor
  let frac : ℚ := scaled - (f : ℚ)
  let r : ℤ :=
    if frac < 1 / 2 then f
    else if 1 / 2 < frac then f + 1
    else if f % 2 = 0 then f else f + 1
  (r : ℚ) / 1000

/-- Zero-padded two-digit decimal. -/
def pad2 (n : Nat) : String :=
  if n < 10 then "0" ++ toString n else toString n

/-- The duration rendering of cli.py line 104:
time.strftime(percent-H:percent-M:percent-S.percent-s,
time.gmtime(round(float(duration), 3))).
gmtime truncates the rounded value to whole seconds; the directives H,
M and S are the zero-padded clock fields of that whole-second value;
the trailing lower-case s directive is the glibc extension printing the
WHOLE seconds-since-epoch value (evaluated here under the UTC timezone),
not a subsecond field, so the fractional part is discarded entirely.
Modelled for the non-negative durations shorter than one day that the
aggregator produces. -/
def renderDuration (d : ℚ) : String :=
  let secs : Nat := (pyRound3 d).floor.toNat
  pad2 (secs / 3600 % 24) ++ ":" ++ pad2 (secs / 60 % 60) ++ ":" ++
    pad2 (secs % 60) ++ "." ++ toString secs

/-- The report's kind tag, cli.py lines 100, 143, 181. -/
def kindString : SequenceKind → String
  | SequenceKind.mainImage => "main_image"
  | SequenceKind.mainAudio => "main_audio"
  | SequenceKind.subtitles => "main_subtitle"

/-- The common part of the per-track report dictionary produced by
to_dict (cli.py lines 98-115, 141-156, 179-191); the kind-specific
essence_info sub-dictionary is built from the essence descriptor
element and is outside the scope of the claims verified here. -/
structure TrackReport where
  kind : String
  fingerprint : String
  virtual_track_id : String
  resource_count : Nat
  duration : String
deriving DecidableEq, Repr

/-- to_dict on a virtual track (cli.py lines 98-104 and the audio and
subtitle twins): the duration field goes through renderDuration. -/
def VirtualTrack.to_dict (t : VirtualTrack) : TrackReport :=
  TrackReport.mk (kindString t.kind) t.fingerprint t.track_id t.resource_count
    (renderDuration t.duration)

deriving instance DecidableEq for Except

/-! ## Helper lemmas -/

/-- takeWhile stops exactly at the first failing element. -/
theorem takeWhile_eq_left (p : Char → Bool) (l₁ l₂ : List Char) (a : Char)
    (h1 : ∀ x ∈ l₁, p x = true) (h2 : p a = false) :
    (l₁ ++ a :: l₂).takeWhile p = l₁ := by
  induction l₁ with
  | nil => simp [List.takeWhile_cons, h2]
  | cons x xs ih =>
    have hx : p x = true := h1 x (List.mem_cons_self x xs)
    simp only [List.cons_append, List.takeWhile_cons, hx, if_true]
    rw [ih (fun y hy => h1 y (List.mem_cons_of_mem x hy))]

/-- C4 counterexample: the claim says a bare localName tag yields
(none, localName), preserving the local name; on the bare tag
MainImageSequence the code returns (None, None) instead — the second
component is None, not the local name. -/
theorem split_qname_bare_cex :
    (split_qname "MainImageSequence").2 = none ∧
    (split_qname "MainImageSequence").2 ≠ some "MainImageSequence" := by
  constructor
  · rfl
  · decide

/-- C4 (amended): split_qname is a pure total function returning
(some namespace, some localName) on a brace-namespace-brace-localName
tag, but on a tag with no namespace segment it returns (none, none) —
the local name is NOT preserved. -/
theorem split_qname_spec (ns lcl s : String)
    (h1 : '\x7d' ∉ lcl.data)
    (h2 : '\x7b' ∉ s.data) :
    split_qname ("\x7b" ++ ns ++ "\x7d" ++ lcl) = (some ns, some lcl) ∧
    split_qname s = (none, none) := by
  obtain ⟨nsl⟩ := ns
  obtain ⟨ll⟩ := lcl
  constructor
  · have hdata : ("\x7b" ++ String.mk nsl ++ "\x7d" ++ String.mk ll).data
        = '\x7b' :: (nsl ++ '\x7d' :: ll) := by
      simp [String.data_append]
    unfold split_qname
    rw [hdata]
    split
    · rename_i rest heq
      obtain rfl : rest = nsl ++ '\x7d' :: ll := (List.cons.injEq _ _ _ _).mp heq.symm |>.2
      have hcontains : (nsl ++ '\x7d' :: ll).contains '\x7d' = true := by
        simp [List.contains]
      rw [if_pos hcontains]
      have hrev : (nsl ++ '\x7d' :: ll).reverse = ll.reverse ++ '\x7d' :: nsl.reverse := by
        simp
      have htake : ((nsl ++ '\x7d' :: ll).reverse.takeWhile (fun c => c ≠ '\x7d')).reverse = ll := by
        rw [hrev, takeWhile_eq_left _ (ll.reverse) (nsl.reverse) '\x7d'
          (fun x hx => by
            simp only [decide_eq_true_eq]
            intro hxe
            exact h1 (by simpa [hxe] using List.mem_reverse.mp hx))
          (by simp)]
        simp
      simp only [htake]
      have hlen : (nsl ++ '\x7d' :: ll).length - ll.length - 1 = nsl.length := by
        simp [List.length_append]
        omega
      rw [hlen]
      have htakeL : (nsl ++ '\x7d' :: ll).take nsl.length = nsl := by
        exact List.take_left nsl ('\x7d' :: ll)
      rw [htakeL]
    · rename_i hne
      exact absurd rfl (hne _)
  · unfold split_qname
    split
    · rename_i rest heq
      exact absurd (heq ▸ List.mem_cons_self _ _) h2
    · rfl

/-- C4 witness: the amended theorem at concrete inputs. -/
theorem split_qname_spec_witness :
    ('\x7d' ∉ ("Foo" : String).data) ∧
    split_qname "\x7bhttp://ns\x7dFoo" = (some "http://ns", some "Foo") ∧
    split_qname "Bar" = (none, none) :=
  ⟨by decide, (split_qname_spec "http://ns" "Foo" "Bar" (by decide) (by decide)).1,
   (split_qname_spec "http://ns" "Foo" "Bar" (by decide) (by decide)).2⟩

set_option maxRecDepth 1000000 in
/-- C2: the claim says to_dict renders duration as a zero-padded
HH:MM:SS.mmm clock string with millisecond precision, with 8.5 seconds
rendering as 00:00:08.500.  The code (cli.py line 104) formats with the
lower-case s strftime directive, which prints the whole
seconds-since-epoch value, after gmtime has already discarded the
fractional second: a track of total duration 8.5 renders as
00:00:08.8, not 00:00:08.500. -/
theorem duration_render_epoch_seconds :
    (VirtualTrack.to_dict
        (VirtualTrack.mk SequenceKind.mainImage "t1" "f" (5 + 7 / 2) 2)).duration
      = "00:00:08.8" ∧
    renderDuration (5 + 7 / 2) ≠ "00:00:08.500" := by
  constructor
  · with_unfolding_all decide
  · with_unfolding_all decide

/-- C3: the claim says a resource whose own EditRate element is absent
falls back to the composition default edit rate.  The code instead
raises: findtext returns None and cpl_rational_to_fraction(None) hits
AttributeError before the or-fallback at cli.py line 261 can apply, for
every composition edit rate and every combination of the other resource
fields. -/
theorem absent_edit_rate_raises (cr : ℚ) (ep sd idr rc tf : Option String) :
    processResource cr (Resource.mk none ep sd idr rc tf) =
      Except.error "AttributeError" := rfl

set_option maxRecDepth 1000000 in
/-- C5: for an empty resource list the aggregator returns total
duration 0, resource count 0, and the fingerprint is the hex digest of
the hash of the empty input (the well-known SHA-1 of the empty
message). -/
theorem empty_resources_aggregate (cr : ℚ) :
    aggregateResources cr [] = Except.ok (sha1Hex "", 0, 0) ∧
    sha1Hex "" = "da39a3ee5e6b4b0d3255bfef95601890afd80709" :=
  ⟨rfl, by decide⟩

set_option maxRecDepth 1000000 in
/-- C6: the fingerprint is order-sensitive — a concrete track with two
distinct resources whose reordering yields a different fingerprint
(the digest of the concatenated per-resource chunks in document
order). -/
theorem fingerprint_order_sensitive :
    (aggregateResources 1
        [Resource.mk (some "1 1") none (some "1") none none (some "a"),
         Resource.mk (some "1 1") none (some "2") none none (some "b")]).map Prod.fst
      ≠
    (aggregateResources 1
        [Resource.mk (some "1 1") none (some "2") none none (some "b"),
         Resource.mk (some "1 1") none (some "1") none none (some "a")]).map Prod.fst
    ∧
    (Resource.mk (some "1 1") none (some "1") none none (some "a")) ≠
      (Resource.mk (some "1 1") none (some "2") none none (some "b")) := by
  constructor
  · with_unfolding_all decide
  · decide

theorem processResource_skip (cr er : ℚ) (r : Resource) (ep n : Int)
    (h1 : resolveEditRate cr r.editRate? = Except.ok er)
    (h2 : entryFrames r.entryPoint? = Except.ok ep)
    (h3 : durationFrames r.sourceDuration? r.intrinsicDuration? = Except.ok n)
    (h4 : er ≠ 0) (h5 : (n : ℚ) / er = 0) :
    processResource cr r = Except.ok none := by
  simp [processResource, h1, h2, h3, h4, h5]

/-- C1: a resource whose computed duration is 0 contributes nothing to
the accumulated duration and nothing to the fingerprint input (the
aggregation of the list with the resource equals the aggregation
without it), yet the returned resource count is the raw length of the
full list including the zero-duration resource. -/
theorem zero_duration_skipped (cr er : ℚ) (r : Resource) (ep n : Int)
    (pre post : List Resource)
    (h1 : resolveEditRate cr r.editRate? = Except.ok er)
    (h2 : entryFrames r.entryPoint? = Except.ok ep)
    (h3 : durationFrames r.sourceDuration? r.intrinsicDuration? = Except.ok n)
    (h4 : er ≠ 0) (h5 : (n : ℚ) / er = 0) :
    aggAux cr (pre ++ r :: post) = aggAux cr (pre ++ post) ∧
    aggregateResources cr (pre ++ r :: post) =
      (aggAux cr (pre ++ post)).map
        (fun p => (sha1Hex p.1, p.2, (pre ++ r :: post).length)) := by
  have hskip : processResource cr r = Except.ok none :=
    processResource_skip cr er r ep n h1 h2 h3 h4 h5
  have key : aggAux cr (pre ++ r :: post) = aggAux cr (pre ++ post) := by
    induction pre with
    | nil => simp [aggAux, hskip]
    | cons p ps ih =>
      simp only [List.cons_append, aggAux, List.append_eq]
      rw [ih]
  refine ⟨key, ?_⟩
  unfold aggregateResources
  rw [key]
  cases h : aggAux cr (pre ++ post) with
  | error e => simp [Except.map]
  | ok p => cases p with | mk inp tot => simp [Except.map]

set_option linter.unusedVariables false in
/-- C10: a resource with non-zero duration and any repeat count at
least 1 contributes its duration exactly once to the accumulated total
(the repeat count never multiplies it), while the repeat count string
is folded into the fingerprint input. -/
theorem repeat_count_single_contribution (cr er : ℚ) (r : Resource) (ep n k : Int)
    (h1 : resolveEditRate cr r.editRate? = Except.ok er)
    (h2 : entryFrames r.entryPoint? = Except.ok ep)
    (h3 : durationFrames r.sourceDuration? r.intrinsicDuration? = Except.ok n)
    (h4 : er ≠ 0)
    (h5 : (n : ℚ) / er ≠ 0)
    (h6 : repeatCount r.repeatCount? = Except.ok k)
    (h7 : 1 ≤ k) :
    processResource cr r = Except.ok (some
      (fractionStr (er * (ep : ℚ)) ++ fractionStr ((n : ℚ) / er) ++
         toString k ++ pyStrOpt r.trackFileId?, (n : ℚ) / er)) ∧
    ∀ rs inp tot, aggAux cr rs = Except.ok (inp, tot) →
      aggAux cr (r :: rs) = Except.ok
        (fractionStr (er * (ep : ℚ)) ++ fractionStr ((n : ℚ) / er) ++
           toString k ++ pyStrOpt r.trackFileId? ++ inp,
         (n : ℚ) / er + tot) := by
  have hp : processResource cr r = Except.ok (some
      (fractionStr (er * (ep : ℚ)) ++ fractionStr ((n : ℚ) / er) ++
         toString k ++ pyStrOpt r.trackFileId?, (n : ℚ) / er)) := by
    simp [processResource, h1, h2, h3, h4, h5, h6]
  refine ⟨hp, fun rs inp tot h => ?_⟩
  simp [aggAux, hp, h]

set_option maxRecDepth 1000000 in
/-- C1 witness: a concrete zero-duration resource among a one-resource
tail. -/
theorem zero_duration_skipped_witness :
    aggAux 24 [Resource.mk (some "24 1") (some "0") (some "0") none none (some "z"),
               Resource.mk (some "24 1") none (some "24") none none (some "a")] =
      aggAux 24 [Resource.mk (some "24 1") none (some "24") none none (some "a")] ∧
    aggregateResources 24
        [Resource.mk (some "24 1") (some "0") (some "0") none none (some "z"),
         Resource.mk (some "24 1") none (some "24") none none (some "a")] =
      (aggAux 24 [Resource.mk (some "24 1") none (some "24") none none (some "a")]).map
        (fun p => (sha1Hex p.1, p.2, 2)) :=
  zero_duration_skipped 24 24
    (Resource.mk (some "24 1") (some "0") (some "0") none none (some "z")) 0 0
    [] [Resource.mk (some "24 1") none (some "24") none none (some "a")]
    (by with_unfolding_all decide) (by with_unfolding_all decide)
    (by with_unfolding_all decide) (by with_unfolding_all decide)
    (by with_unfolding_all decide)

set_option maxRecDepth 1000000 in
/-- C10 witness: repeat count 3, duration 2, contributed once. -/
theorem repeat_count_single_contribution_witness :
    ((1 : Int) ≤ 3) ∧
    aggAux 1 [Resource.mk (some "1 1") none (some "2") none (some "3") (some "x")] =
      Except.ok ("023x" ++ "", (2 : ℚ) + 0) := by
  refine ⟨by decide, ?_⟩
  with_unfolding_all
    exact (repeat_count_single_contribution 1 1
      (Resource.mk (some "1 1") none (some "2") none (some "3") (some "x")) 0 2 3
      (by with_unfolding_all decide) (by with_unfolding_all decide)
      (by with_unfolding_all decide) (by with_unfolding_all decide)
      (by with_unfolding_all decide) (by with_unfolding_all decide)
      (by decide)).2 [] "" 0 rfl

theorem processResource_of_computed (cr : ℚ) (r : Resource)
    (v : ℚ × ℚ × Int × Option String)
    (h : computedValues cr r = Except.ok v) :
    processResource cr r =
      if v.2.1 = 0 then Except.ok none
      else Except.ok (some (chunkOf v, v.2.1)) := by
  unfold computedValues at h
  split at h
  · exact Except.noConfusion h
  · rename_i er heq1
    split at h
    · exact Except.noConfusion h
    · rename_i ep heq2
      split at h
      · exact Except.noConfusion h
      · rename_i n heq3
        split at h
        · exact Except.noConfusion h
        · rename_i hne
          split at h
          · exact Except.noConfusion h
          · rename_i rc heq6
            injection h with h
            subst h
            simp only [processResource, heq1, heq2, heq3, heq6, if_neg hne, chunkOf]

theorem computedList_nil_inv (cr : ℚ) (rs : List Resource)
    (h : computedList cr rs = Except.ok []) : rs = [] := by
  cases rs with
  | nil => rfl
  | cons r t =>
    unfold computedList at h
    split at h
    · exact Except.noConfusion h
    · split at h
      · exact Except.noConfusion h
      · injection h with h
        exact List.noConfusion h

theorem computedList_cons_inv (cr : ℚ) (r : Resource) (t : List Resource)
    (v : ℚ × ℚ × Int × Option String) (vs : List (ℚ × ℚ × Int × Option String))
    (h : computedList cr (r :: t) = Except.ok (v :: vs)) :
    computedValues cr r = Except.ok v ∧ computedList cr t = Except.ok vs := by
  unfold computedList at h
  split at h
  · exact Except.noConfusion h
  · rename_i w heqw
    split at h
    · exact Except.noConfusion h
    · rename_i ws heqws
      injection h with h
      injection h with hv hvs
      subst hv
      subst hvs
      exact ⟨heqw, heqws⟩

theorem aggAux_eq_of_computedList (vs : List (ℚ × ℚ × Int × Option String)) :
    ∀ (cr1 cr2 : ℚ) (rs1 rs2 : List Resource),
      computedList cr1 rs1 = Except.ok vs →
      computedList cr2 rs2 = Except.ok vs →
      aggAux cr1 rs1 = aggAux cr2 rs2 := by
  induction vs with
  | nil =>
    intro cr1 cr2 rs1 rs2 h1 h2
    rw [computedList_nil_inv cr1 rs1 h1, computedList_nil_inv cr2 rs2 h2]
    rfl
  | cons v vt ih =>
    intro cr1 cr2 rs1 rs2 h1 h2
    cases rs1 with
    | nil => unfold computedList at h1; simp at h1
    | cons r1 t1 =>
      cases rs2 with
      | nil => unfold computedList at h2; simp at h2
      | cons r2 t2 =>
        obtain ⟨hv1, ht1⟩ := computedList_cons_inv cr1 r1 t1 v vt h1
        obtain ⟨hv2, ht2⟩ := computedList_cons_inv cr2 r2 t2 v vt h2
        have hp1 := processResource_of_computed cr1 r1 v hv1
        have hp2 := processResource_of_computed cr2 r2 v hv2
        have hrec := ih cr1 cr2 t1 t2 ht1 ht2
        by_cases hz : v.2.1 = 0
        · simp only [aggAux, hp1, hp2, if_pos hz, hrec]
        · simp only [aggAux, hp1, hp2, if_neg hz, hrec]

theorem length_of_computedList (cr : ℚ) : ∀ (rs : List Resource)
    (vs : List (ℚ × ℚ × Int × Option String)),
    computedList cr rs = Except.ok vs → rs.length = vs.length
  | [], vs, h => by
    unfold computedList at h
    injection h with h
    rw [← h]
    rfl
  | r :: t, [], h => by
    have := computedList_nil_inv cr (r :: t) h
    exact List.noConfusion this
  | r :: t, v :: vt, h => by
    obtain ⟨hv, ht⟩ := computedList_cons_inv cr r t v vt h
    simp [length_of_computedList cr t vt ht]

/-- C7: two resource lists whose element-wise computed values
(entry_point, duration, repeat_count, trackfile_id) coincide produce
identical aggregation results — in particular equal fingerprints —
regardless of which (possibly unreduced) rational representations of
the edit rate were used in the source to compute them. -/
theorem fingerprint_computed_values (cr1 cr2 : ℚ) (rs1 rs2 : List Resource)
    (vs : List (ℚ × ℚ × Int × Option String))
    (h1 : computedList cr1 rs1 = Except.ok vs)
    (h2 : computedList cr2 rs2 = Except.ok vs) :
    aggregateResources cr1 rs1 = aggregateResources cr2 rs2 := by
  have hagg := aggAux_eq_of_computedList vs cr1 cr2 rs1 rs2 h1 h2
  have hlen : rs1.length = rs2.length := by
    rw [length_of_computedList cr1 rs1 vs h1, length_of_computedList cr2 rs2 vs h2]
  unfold aggregateResources
  rw [hagg, hlen]

set_option maxRecDepth 200000 in
/-- C7 witness: the edit rate written 4 2 versus its reduced form 2 1
computes the same values and hence the same fingerprint. -/
theorem fingerprint_computed_values_witness :
    computedList 1 [Resource.mk (some "4 2") (some "3") (some "6") none (some "2") (some "x")] =
      Except.ok [((6 : ℚ), (3 : ℚ), 2, some "x")] ∧
    aggregateResources 1
        [Resource.mk (some "4 2") (some "3") (some "6") none (some "2") (some "x")] =
      aggregateResources 1
        [Resource.mk (some "2 1") (some "3") (some "6") none (some "2") (some "x")] :=
  ⟨by with_unfolding_all decide,
   fingerprint_computed_values 1 1
     [Resource.mk (some "4 2") (some "3") (some "6") none (some "2") (some "x")]
     [Resource.mk (some "2 1") (some "3") (some "6") none (some "2") (some "x")]
     [((6 : ℚ), (3 : ℚ), 2, some "x")]
     (by with_unfolding_all decide) (by with_unfolding_all decide)⟩

theorem processSequence_missing_descriptor (doc : CPLDoc) (s : Sequence)
    (tid se : String) (k : SequenceKind)
    (h1 : s.trackId? = some tid)
    (h2 : nsOk (split_qname s.tag).1 = true)
    (h3 : kindOf (split_qname s.tag).2 = some k)
    (h4 : s.sourceEncoding? = some se)
    (h5 : doc.descriptorIds.contains se = false) :
    processSequence doc s =
      Except.ok (some (Diag.diagError "Cannot find essence descriptor"), none) := by
  have h5' : ¬ se ∈ doc.descriptorIds := by simpa using h5
  simp [processSequence, h1, h2, h3, h4, h5, h5']

theorem buildTracks_skip (doc : CPLDoc) (s : Sequence) (d : Option Diag)
    (hps : processSequence doc s = Except.ok (d, none)) :
    ∀ (pre post : List Sequence),
      (buildTracks doc (pre ++ s :: post)).map Prod.snd
        = (buildTracks doc (pre ++ post)).map Prod.snd
  | [], post => by
    simp only [List.nil_append, buildTracks, hps]
    cases h : buildTracks doc post with
    | error e => rfl
    | ok p => cases p with | mk ds ts => simp [Except.map]
  | p :: ps, post => by
    have ih := buildTracks_skip doc s d hps ps post
    simp only [List.cons_append, buildTracks, List.append_eq]
    cases hp : processSequence doc p with
    | error e => rfl
    | ok q =>
      cases q with
      | mk d? t? =>
        cases hL : buildTracks doc (ps ++ s :: post) with
        | error eL =>
          cases hR : buildTracks doc (ps ++ post) with
          | error eR =>
            rw [hL, hR] at ih
            simp only [Except.map] at ih ⊢
            exact ih
          | ok pR =>
            rw [hL, hR] at ih
            simp [Except.map] at ih
        | ok pL =>
          cases hR : buildTracks doc (ps ++ post) with
          | error eR =>
            rw [hL, hR] at ih
            simp [Except.map] at ih
          | ok pR =>
            cases pL with
            | mk ds1 ts1 =>
              cases pR with
              | mk ds2 ts2 =>
                rw [hL, hR] at ih
                simp only [Except.map, Except.ok.injEq] at ih
                simp [Except.map, ih]

/-- C8: a sequence whose SourceEncoding matches no essence descriptor
id in the document makes the builder emit an error diagnostic and skip
the sequence without raising, and the virtual tracks built from the
document equal those built with the offending sequence removed —
subsequent sequences are still processed. -/
theorem missing_descriptor_skips (doc : CPLDoc) (s : Sequence)
    (pre post : List Sequence) (tid se : String) (k : SequenceKind)
    (h1 : s.trackId? = some tid)
    (h2 : nsOk (split_qname s.tag).1 = true)
    (h3 : kindOf (split_qname s.tag).2 = some k)
    (h4 : s.sourceEncoding? = some se)
    (h5 : doc.descriptorIds.contains se = false)
    (hseq : doc.sequences = pre ++ s :: post) :
    processSequence doc s =
      Except.ok (some (Diag.diagError "Cannot find essence descriptor"), none) ∧
    (buildCPL doc).map Prod.snd = (buildTracks doc (pre ++ post)).map Prod.snd := by
  have hps := processSequence_missing_descriptor doc s tid se k h1 h2 h3 h4 h5
  refine ⟨hps, ?_⟩
  unfold buildCPL
  rw [hseq]
  exact buildTracks_skip doc s (some (Diag.diagError "Cannot find essence descriptor")) hps pre post

set_option maxRecDepth 200000 in
/-- C8 witness: a one-sequence document whose SourceEncoding id has no
matching descriptor. -/
theorem missing_descriptor_skips_witness :
    processSequence
        (CPLDoc.mk 24 [] []
          [Sequence.mk "\x7bhttp://www.smpte-ra.org/schemas/2067-2/2016\x7dMainImageSequence"
            (some "t1") (some "missing")])
        (Sequence.mk "\x7bhttp://www.smpte-ra.org/schemas/2067-2/2016\x7dMainImageSequence"
          (some "t1") (some "missing")) =
      Except.ok (some (Diag.diagError "Cannot find essence descriptor"), none) ∧
    (buildCPL
        (CPLDoc.mk 24 [] []
          [Sequence.mk "\x7bhttp://www.smpte-ra.org/schemas/2067-2/2016\x7dMainImageSequence"
            (some "t1") (some "missing")])).map Prod.snd =
      (buildTracks
        (CPLDoc.mk 24 [] []
          [Sequence.mk "\x7bhttp://www.smpte-ra.org/schemas/2067-2/2016\x7dMainImageSequence"
            (some "t1") (some "missing")]) []).map Prod.snd :=
  missing_descriptor_skips
    (CPLDoc.mk 24 [] []
      [Sequence.mk "\x7bhttp://www.smpte-ra.org/schemas/2067-2/2016\x7dMainImageSequence"
        (some "t1") (some "missing")])
    (Sequence.mk "\x7bhttp://www.smpte-ra.org/schemas/2067-2/2016\x7dMainImageSequence"
      (some "t1") (some "missing"))
    [] [] "t1" "missing" SequenceKind.mainImage
    rfl (by decide) (by decide) rfl rfl rfl

theorem processResource_missing_duration (cr : ℚ) (r : Resource)
    (h7 : r.sourceDuration? = none) (h8 : r.intrinsicDuration? = none) :
    exceptIsError (processResource cr r) = true := by
  unfold processResource
  cases h1 : resolveEditRate cr r.editRate? with
  | error e => rfl
  | ok er =>
    cases h2 : entryFrames r.entryPoint? with
    | error e => rfl
    | ok ep =>
      simp [h7, h8, durationFrames, exceptIsError]

theorem aggAux_error_of_mem (cr : ℚ) (r : Resource) :
    ∀ (rs : List Resource), r ∈ rs → exceptIsError (processResource cr r) = true →
      exceptIsError (aggAux cr rs) = true
  | [], h, _ => absurd h (List.not_mem_nil r)
  | x :: t, h, herr => by
    rcases List.mem_cons.mp h with rfl | hmem
    · unfold aggAux
      cases hp : processResource cr r with
      | error e => rfl
      | ok v =>
        rw [hp] at herr
        simp [exceptIsError] at herr
    · unfold aggAux
      cases hp : processResource cr x with
      | error e => rfl
      | ok v =>
        cases v with
        | none => exact aggAux_error_of_mem cr r t hmem herr
        | some c =>
          cases c with
          | mk chunk dd =>
            have htail := aggAux_error_of_mem cr r t hmem herr
            cases hL : aggAux cr t with
            | error e => rfl
            | ok p =>
              rw [hL] at htail
              simp [exceptIsError] at htail

theorem aggregateResources_error (cr : ℚ) (rs : List Resource)
    (h : exceptIsError (aggAux cr rs) = true) :
    exceptIsError (aggregateResources cr rs) = true := by
  unfold aggregateResources
  cases hL : aggAux cr rs with
  | error e => rfl
  | ok p =>
    rw [hL] at h
    simp [exceptIsError] at h

theorem processSequence_error_of_resources (doc : CPLDoc) (s : Sequence)
    (tid se : String) (k : SequenceKind)
    (h1 : s.trackId? = some tid)
    (h2 : nsOk (split_qname s.tag).1 = true)
    (h3 : kindOf (split_qname s.tag).2 = some k)
    (h4 : s.sourceEncoding? = some se)
    (h5 : doc.descriptorIds.contains se = true)
    (hagg : exceptIsError (aggregateResources doc.compEditRate (resourcesFor doc tid)) = true) :
    exceptIsError (processSequence doc s) = true := by
  simp only [processSequence, h1, h2, h3, h4, h5]
  cases hA : aggregateResources doc.compEditRate (resourcesFor doc tid) with
  | error e => simp [exceptIsError]
  | ok p =>
    rw [hA] at hagg
    simp [exceptIsError] at hagg

theorem buildTracks_error_of_mem (doc : CPLDoc) :
    ∀ (seqs : List Sequence) (s : Sequence), s ∈ seqs →
      exceptIsError (processSequence doc s) = true →
      exceptIsError (buildTracks doc seqs) = true
  | [], s, h, _ => absurd h (List.not_mem_nil s)
  | x :: t, s, h, herr => by
    rcases List.mem_cons.mp h with rfl | hmem
    · unfold buildTracks
      cases hp : processSequence doc s with
      | error e => rfl
      | ok v =>
        rw [hp] at herr
        simp [exceptIsError] at herr
    · unfold buildTracks
      cases hp : processSequence doc x with
      | error e => rfl
      | ok v =>
        cases v with
        | mk d? t? =>
          have htail := buildTracks_error_of_mem doc t s hmem herr
          cases hL : buildTracks doc t with
          | error e => rfl
          | ok p =>
            rw [hL] at htail
            simp [exceptIsError] at htail

/-- C9: a resource of a processed sequence that is missing both the
SourceDuration and the IntrinsicDuration element makes the whole
extraction raise (the builder returns an error, never a partial track
list). -/
theorem missing_duration_fields_fatal (doc : CPLDoc) (s : Sequence)
    (pre post : List Sequence) (tid se : String) (k : SequenceKind) (r : Resource)
    (hseq : doc.sequences = pre ++ s :: post)
    (h1 : s.trackId? = some tid)
    (h2 : nsOk (split_qname s.tag).1 = true)
    (h3 : kindOf (split_qname s.tag).2 = some k)
    (h4 : s.sourceEncoding? = some se)
    (h5 : doc.descriptorIds.contains se = true)
    (h6 : r ∈ resourcesFor doc tid)
    (h7 : r.sourceDuration? = none)
    (h8 : r.intrinsicDuration? = none) :
    exceptIsError (buildCPL doc) = true := by
  have hr := processResource_missing_duration doc.compEditRate r h7 h8
  have ha := aggAux_error_of_mem doc.compEditRate r (resourcesFor doc tid) h6 hr
  have hagg := aggregateResources_error doc.compEditRate (resourcesFor doc tid) ha
  have hs := processSequence_error_of_resources doc s tid se k h1 h2 h3 h4 h5 hagg
  unfold buildCPL
  rw [hseq]
  exact buildTracks_error_of_mem doc (pre ++ s :: post) s
    (List.mem_append_right pre (List.mem_cons_self s post)) hs

set_option maxRecDepth 200000 in
/-- C9 witness: a concrete document whose single track has one resource
with neither duration field. -/
theorem missing_duration_fields_fatal_witness :
    exceptIsError (buildCPL
      (CPLDoc.mk 24 ["d1"]
        [("t1", [Resource.mk (some "24 1") none none none none none])]
        [Sequence.mk "\x7bhttp://www.smpte-ra.org/schemas/2067-2/2016\x7dMainImageSequence"
          (some "t1") (some "d1")])) = true :=
  missing_duration_fields_fatal
    (CPLDoc.mk 24 ["d1"]
      [("t1", [Resource.mk (some "24 1") none none none none none])]
      [Sequence.mk "\x7bhttp://www.smpte-ra.org/schemas/2067-2/2016\x7dMainImageSequence"
        (some "t1") (some "d1")])
    (Sequence.mk "\x7bhttp://www.smpte-ra.org/schemas/2067-2/2016\x7dMainImageSequence"
      (some "t1") (some "d1"))
    [] [] "t1" "d1" SequenceKind.mainImage
    (Resource.mk (some "24 1") none none none none none)
    rfl rfl (by decide) (by decide) rfl rfl (by decide) rfl rfl
